import Mathlib

/- Shallow embedding of src/src/modules/proto_detail/proto_detail_file.c:
   the detail-file record reader (mod_read) and acknowledgment writer
   (mod_write), over a byte-list model of the working file and of the
   caller-owned transport buffer.  Bytes are natural numbers; file offsets
   are integers (off_t); rad_assert failures are modelled by an aborted
   flag on the result. -/

abbrev Byte := Nat

/-- Byte at index i of a byte list, 0 when out of range. -/
def byteAt (l : List Byte) (i : Nat) : Byte := l.getD i 0

/-- The subrange [a, b) of a byte list. -/
def subRange (l : List Byte) (a b : Nat) : List Byte := (l.drop a).take (b - a)

/-- Overwrite bytes of data starting at ofs, zero padding when ofs lies past
    the end (POSIX write-at-offset semantics: holes read back as zeros). -/
def storeBytes (data : List Byte) (ofs : Nat) (bytes : List Byte) : List Byte :=
  (data.take ofs ++ List.replicate (ofs - data.length) 0) ++ bytes ++ data.drop (ofs + bytes.length)

/-- An open file descriptor: contents plus current cursor position. -/
structure Fd where
  data : List Byte
  pos : Nat
  deriving DecidableEq

/-- lseek(fd, ofs, SEEK_SET): fails (returns -1, cursor unchanged) on a
    negative target offset, otherwise moves the cursor and returns it. -/
def lseekSet (f : Fd) (ofs : Int) : Fd × Int :=
  if ofs < 0 then (f, -1) else ({ f with pos := ofs.toNat }, ofs)

/-- read(fd, buf, n): returns up to n bytes starting at the cursor and
    advances the cursor by the number of bytes returned. -/
def fdRead (f : Fd) (n : Nat) : Fd × List Byte :=
  let bytes := (f.data.drop f.pos).take n
  ({ f with pos := f.pos + bytes.length }, bytes)

/-- write(fd, bytes): overwrites at the cursor and advances it. -/
def fdWrite (f : Fd) (bytes : List Byte) : Fd :=
  { data := storeBytes f.data f.pos bytes, pos := f.pos + bytes.length }

/-- fr_detail_entry_t: the per-record tracking entry created by mod_read and
    consumed by mod_write. -/
structure fr_detail_entry_t where
  timestamp : Nat
  done_offset : Int
  deriving DecidableEq

/-- proto_detail_file_t: the reader instance state (the file bookkeeping
    fields driven by mod_read and mod_write; configuration and scheduler
    fields of the C struct do not participate in the record state machine,
    except max_packet_size which the C code reads from inst.parent). -/
structure proto_detail_file_t where
  fd : Fd
  eof : Bool
  closing : Bool
  outstanding : Int
  file_size : Int
  header_offset : Int
  read_offset : Int
  max_packet_size : Nat
  deriving DecidableEq

/-- The bytes of the C literal used at line 274: tab, D, o, n, e. -/
def doneTag : List Byte := [9, 68, 111, 110, 101]

/-- The bytes of the C literal used at line 279: tab, T, i, m, e, s, t, a, m, p. -/
def timestampTag : List Byte := [9, 84, 105, 109, 101, 115, 116, 97, 109, 112]

/-- The bytes of the 4-byte marker written by mod_write: D, o, n, e. -/
def doneMarker : List Byte := [68, 111, 110, 101]

/-- Modelled from the spec: FR_MAX_PACKET_CODE is the size of the priorities
    table; it is defined in a protocol header that is not among the sources
    (only proto_detail_file.c is present).  It counts the RADIUS packet
    codes, 53 in this code base, a small fixed set well below the 256
    possible values of the leading byte used as the index. -/
def FR_MAX_PACKET_CODE : Nat := 53

/-- Modelled from the spec: the RADIUS packet-code constants used as the
    designated initializer indices of the priorities table; defined in a
    header not among the sources.  These are the standard code values. -/
def FR_CODE_ACCESS_REQUEST : Nat := 1

def FR_CODE_ACCOUNTING_REQUEST : Nat := 4

def FR_CODE_STATUS_SERVER : Nat := 12

def FR_CODE_DISCONNECT_REQUEST : Nat := 40

def FR_CODE_COA_REQUEST : Nat := 43

/-- Modelled from the spec: the priority levels, ordered
    immediate > high > normal > low; numeric values are defined in an io
    header not among the sources, only the ordering matters here. -/
def PRIORITY_NOW : Nat := 4

def PRIORITY_HIGH : Nat := 3

def PRIORITY_NORMAL : Nat := 2

def PRIORITY_LOW : Nat := 1

/-- The priorities array contents: designated initializers from lines 96 to
    102; all entries not named there are zero initialized. -/
def priorities (b : Nat) : Nat :=
  if b = FR_CODE_ACCESS_REQUEST then PRIORITY_HIGH
  else if b = FR_CODE_ACCOUNTING_REQUEST then PRIORITY_LOW
  else if b = FR_CODE_COA_REQUEST then PRIORITY_NORMAL
  else if b = FR_CODE_DISCONNECT_REQUEST then PRIORITY_NORMAL
  else if b = FR_CODE_STATUS_SERVER then PRIORITY_NOW
  else 0

/-- The read priorities[b] performed at line 292: the array has
    FR_MAX_PACKET_CODE entries, so the access is in bounds only for
    b < FR_MAX_PACKET_CODE; none models the out-of-bounds read. -/
def prioritiesLookup (b : Nat) : Option Nat :=
  if b < FR_MAX_PACKET_CODE then some (priorities b) else none

/-- The delimiter scan loop of lines 183 to 191: from position p while
    p < endIdx, looking for two consecutive newline bytes; a newline at the
    last filled position breaks without a match.  Returns the index just
    past the pair (C variable next) when found.  Fuel only bounds the
    iteration count; each step advances p by one, so fuel endIdx - p is
    exact and the fuel-less base agrees with the loop guard. -/
def findDelimAux (buf : List Byte) (endIdx : Nat) : Nat → Nat → Option Nat
  | 0, _ => none
  | fuel+1, p =>
    if endIdx ≤ p then none
    else if byteAt buf p ≠ 10 then findDelimAux buf endIdx fuel (p+1)
    else if p + 1 = endIdx then none
    else if byteAt buf (p+1) = 10 then some (p+2)
    else findDelimAux buf endIdx fuel (p+1)

def findDelim (buf : List Byte) (s endIdx : Nat) : Option Nat :=
  findDelimAux buf endIdx (endIdx - s) s

/-- Result of the tag scan of lines 268 to 283: either a jump to
    skip_record (a done tag matched) or the final done_offset value. -/
inductive TagScanRes where
  | skip
  | found (done_offset : Int)
  deriving DecidableEq

/-- The tag scan loop of lines 268 to 283, over the accepted record
    [0, packet_len).  At a newline byte p it compares the 5 bytes starting
    AT p with the done tag and the 10 bytes starting AT p with the
    timestamp tag, exactly as the C memcmp calls do (both comparisons start
    at the newline itself).  On a timestamp match it advances p by two,
    records hdr + p as done_offset, and the loop increment adds one more.
    Fuel bounds iterations; every step advances p by at least one and the
    loop stops once packet_len ≤ p, so fuel packet_len from p = 0 is
    sufficient and the base case agrees with the loop guard. -/
def tagScanAux (buf : List Byte) (packet_len : Nat) (hdr : Int) : Nat → Nat → Int → TagScanRes
  | 0, _, acc => TagScanRes.found acc
  | fuel+1, p, acc =>
    if packet_len ≤ p then TagScanRes.found acc
    else if byteAt buf p ≠ 10 then tagScanAux buf packet_len hdr fuel (p+1) acc
    else if 5 ≤ packet_len - p ∧ subRange buf p (p+5) = doneTag then TagScanRes.skip
    else if 10 < packet_len - p ∧ subRange buf p (p+10) = timestampTag then
      tagScanAux buf packet_len hdr fuel (p+3) (hdr + (p : Int) + 2)
    else tagScanAux buf packet_len hdr fuel (p+1) acc

def tagScan (buf : List Byte) (packet_len : Nat) (hdr : Int) : TagScanRes :=
  tagScanAux buf packet_len hdr packet_len 0 0

/-- Outcome of the redo loop of mod_read (label redo at line 166). -/
inductive LoopRes where
  | fuelOut
  | retZero (buf : List Byte) (leftover : Nat)
  | skipDone (packet_len leftover : Nat) (buf : List Byte)
  | accept (packet_len leftover : Nat) (done_offset : Int) (buf : List Byte)
  deriving DecidableEq

/-- The redo loop of mod_read, lines 166 to 283: delimiter scan, the three
    found / not-found-not-eof / not-found-at-eof cases, the oversize check
    with the memmove compaction restart, and the tag scan whose done-tag
    match restarts the same way.  retZero is the early return 0 of line
    212; skipDone is the goto done of line 253 reached with no next record
    (the C rad_assert leftover == 0 there holds by construction: that path
    sets leftover to 0 at line 221); accept falls through to the tracking
    entry creation.  Each restart shrinks the filled region by at least
    two bytes, so fuel endIdx + 1 is never exhausted. -/
def redoLoop (inst : proto_detail_file_t) : Nat → List Byte → Nat → Nat → Nat → LoopRes
  | 0, _, _, _, _ => LoopRes.fuelOut
  | fuel+1, buf, leftover, partialIdx, endIdx =>
    let s := if 0 < leftover then partialIdx - 1 else partialIdx
    match findDelim buf s endIdx with
    | some next =>
      let packet_len := next
      let lv := endIdx - next
      if inst.max_packet_size < packet_len then
        redoLoop inst fuel (storeBytes buf 0 (subRange buf next endIdx)) 0 0 (endIdx - next)
      else
        match tagScan buf packet_len inst.header_offset with
        | TagScanRes.skip =>
          redoLoop inst fuel (storeBytes buf 0 (subRange buf next endIdx)) 0 0 (endIdx - next)
        | TagScanRes.found dofs => LoopRes.accept packet_len lv dofs buf
    | none =>
      if inst.eof = false then LoopRes.retZero buf endIdx
      else
        let packet_len := endIdx
        if inst.max_packet_size < packet_len then
          LoopRes.skipDone packet_len 0 buf
        else
          match tagScan buf packet_len inst.header_offset with
          | TagScanRes.skip => LoopRes.skipDone packet_len 0 buf
          | TagScanRes.found dofs => LoopRes.accept packet_len 0 dofs buf

/-- The buffer fill step of lines 129 to 164: when not at eof, read into
    the buffer after the leftover region, record the resulting cursor as
    read_offset and derive the eof flag; when at eof, rad_assert
    leftover > 0 (none models the assertion failure) and reuse the leftover
    bytes.  Returns the instance, the filled buffer and the fill end. -/
def fillStep (inst : proto_detail_file_t) (buffer : List Byte) (buffer_len leftover : Nat) :
    Option (proto_detail_file_t × List Byte × Nat) :=
  if inst.eof = false then
    let room := buffer_len - leftover
    let r := fdRead inst.fd room
    let ro : Int := (r.1.pos : Int)
    let eofNow : Bool := (r.2.length == 0) || (ro == inst.file_size)
    some ({ inst with fd := r.1, read_offset := ro, eof := eofNow },
          storeBytes buffer leftover r.2, leftover + r.2.length)
  else if leftover = 0 then
    none
  else
    some (inst, buffer, leftover)

/-- The done block of lines 305 to 317: at eof, rewind the cursor one byte
    from read_offset, rad_assert the stream is not already closing (none
    models the assertion failure), and set closing when the leftover count
    is zero; in every case increment outstanding. -/
def doneBlock (inst : proto_detail_file_t) (leftover : Nat) : Option proto_detail_file_t :=
  if inst.eof then
    let hack : Int := inst.read_offset - 1
    let r := lseekSet inst.fd hack
    if inst.closing then none
    else
      some { inst with
             fd := r.1, read_offset := r.2,
             closing := leftover == 0, outstanding := inst.outstanding + 1 }
  else some { inst with outstanding := inst.outstanding + 1 }

/-- Result of mod_read: the ssize_t return value, the out parameters
    packet_ctx and priority (none when the C code never stores through
    them; the inner none of priority models an out-of-bounds priorities
    read), the updated instance, the buffer contents and the leftover
    count.  aborted models a rad_assert failure; fuelOut is the loop bound
    artifact, never reached. -/
structure ReadOut where
  ret : Int
  aborted : Bool := false
  fuelOut : Bool := false
  packet_ctx : Option fr_detail_entry_t := none
  priority : Option (Option Nat) := none
  inst : proto_detail_file_t
  buffer : List Byte
  leftover : Nat
  deriving DecidableEq

/-- mod_read, lines 104 to 322: entry assertion leftover < buffer_len, the
    closing early return (seek to file_size, return 0), the fill step, the
    redo loop, then for an accepted record the tracking entry (timestamp
    from fr_time, modelled by the now parameter), header_offset advance,
    packet_ctx / priority stores, and for both accept and skip-at-eof the
    done block and the packet_len return. -/
def mod_read (inst : proto_detail_file_t) (buffer : List Byte) (buffer_len leftover now : Nat) :
    ReadOut :=
  if buffer_len ≤ leftover then
    { ret := 0, aborted := true, inst := inst, buffer := buffer, leftover := leftover }
  else if inst.closing then
    let r := lseekSet inst.fd inst.file_size
    { ret := 0, inst := { inst with fd := r.1, read_offset := r.2 },
      buffer := buffer, leftover := leftover }
  else
    match fillStep inst buffer buffer_len leftover with
    | none => { ret := 0, aborted := true, inst := inst, buffer := buffer, leftover := leftover }
    | some (inst1, buf1, endIdx) =>
      match redoLoop inst1 (endIdx + 1) buf1 leftover leftover endIdx with
      | LoopRes.fuelOut =>
        { ret := 0, fuelOut := true, inst := inst1, buffer := buf1, leftover := leftover }
      | LoopRes.retZero buf2 lv => { ret := 0, inst := inst1, buffer := buf2, leftover := lv }
      | LoopRes.skipDone packet_len lv buf2 =>
        match doneBlock inst1 lv with
        | none => { ret := 0, aborted := true, inst := inst1, buffer := buf2, leftover := lv }
        | some inst2 =>
          { ret := (packet_len : Int), inst := inst2, buffer := buf2, leftover := lv }
      | LoopRes.accept packet_len lv dofs buf2 =>
        let track : fr_detail_entry_t := { timestamp := now, done_offset := dofs }
        let instH := { inst1 with header_offset := inst1.header_offset + (packet_len : Int) }
        match doneBlock instH lv with
        | none => { ret := 0, aborted := true, inst := instH, buffer := buf2, leftover := lv }
        | some inst2 =>
          { ret := (packet_len : Int), packet_ctx := some track,
            priority := some (prioritiesLookup (byteAt buf2 0)),
            inst := inst2, buffer := buf2, leftover := lv }

/-- Result of mod_write: the ssize_t return value and the updated instance;
    aborted models the rad_assert outstanding > 0 failure. -/
structure WriteOut where
  ret : Int
  aborted : Bool := false
  inst : proto_detail_file_t
  deriving DecidableEq

/-- mod_write, lines 324 to 358: reject buffer_len < 1, rad_assert
    outstanding > 0, decrement outstanding; when the leading buffer byte is
    the do-not-respond sentinel 0 skip the write back entirely; otherwise
    when done_offset > 0 seek there, write the 4 Done bytes and seek back
    to read_offset (all three results discarded, as the C void casts do);
    return buffer_len. -/
def mod_write (inst : proto_detail_file_t) (track : fr_detail_entry_t) (buffer : List Byte)
    (buffer_len : Nat) : WriteOut :=
  if buffer_len < 1 then { ret := -1, inst := inst }
  else if inst.outstanding ≤ 0 then { ret := 0, aborted := true, inst := inst }
  else
    let inst1 := { inst with outstanding := inst.outstanding - 1 }
    if byteAt buffer 0 = 0 then { ret := (buffer_len : Int), inst := inst1 }
    else if 0 < track.done_offset then
      let r1 := lseekSet inst1.fd track.done_offset
      let f2 := fdWrite r1.1 doneMarker
      let r3 := lseekSet f2 inst1.read_offset
      { ret := (buffer_len : Int), inst := { inst1 with fd := r3.1 } }
    else { ret := (buffer_len : Int), inst := inst1 }

/- Concrete instances used to settle the individual claims. -/

/-- C1 input: an 8 byte final record with no delimiter, read in one gulp to
    eof, with a 4 byte maximum record size. -/
def c1_inst : proto_detail_file_t :=
  { fd := { data := List.replicate 8 97, pos := 0 }, eof := false, closing := false,
    outstanding := 0, file_size := 8, header_offset := 0, read_offset := 0,
    max_packet_size := 4 }

def c1_out : ReadOut := mod_read c1_inst (List.replicate 16 0) 16 0 0

/-- C2 input: the file holds one record B, newline, tab Done, terminated by
    a blank line. -/
def c2_file : List Byte := [66, 10, 9, 68, 111, 110, 101, 10, 10]

def c2_inst : proto_detail_file_t :=
  { fd := { data := c2_file, pos := 0 }, eof := false, closing := false,
    outstanding := 0, file_size := 9, header_offset := 0, read_offset := 0,
    max_packet_size := 100 }

def c2_out : ReadOut := mod_read c2_inst (List.replicate 16 0) 16 0 0

/-- C3 input: one record B, newline, tab Timestamp tab = space 5, terminated
    by a blank line. -/
def c3_file : List Byte :=
  [66, 10, 9, 84, 105, 109, 101, 115, 116, 97, 109, 112, 9, 61, 32, 53, 10, 10]

def c3_inst : proto_detail_file_t :=
  { fd := { data := c3_file, pos := 0 }, eof := false, closing := false,
    outstanding := 0, file_size := 18, header_offset := 0, read_offset := 0,
    max_packet_size := 100 }

def c3_out : ReadOut := mod_read c3_inst (List.replicate 32 0) 32 0 0

/-- C4 input: a 6 byte oversize final record (maximum 4), like C1. -/
def c4_inst : proto_detail_file_t :=
  { fd := { data := List.replicate 6 98, pos := 0 }, eof := false, closing := false,
    outstanding := 0, file_size := 6, header_offset := 0, read_offset := 0,
    max_packet_size := 4 }

def c4_out : ReadOut := mod_read c4_inst (List.replicate 8 0) 8 0 0

/-- C5 counterexample input: the file starts with a record whose blank-line
    terminator ends exactly at the fill end, and the file is longer than
    what was read so the stream is not at eof. -/
def c5x_inst : proto_detail_file_t :=
  { fd := { data := [65, 10, 10], pos := 0 }, eof := false, closing := false,
    outstanding := 0, file_size := 4, header_offset := 0, read_offset := 0,
    max_packet_size := 100 }

def c5x_out : ReadOut := mod_read c5x_inst (List.replicate 8 0) 8 0 0

/-- C5 witness input: the fill ends in a single newline, no delimiter. -/
def c5w_inst : proto_detail_file_t :=
  { fd := { data := [65, 10], pos := 0 }, eof := false, closing := false,
    outstanding := 0, file_size := 3, header_offset := 0, read_offset := 0,
    max_packet_size := 100 }

/-- C6 witness input: stream already at eof, three leftover bytes forming a
    complete record. -/
def c6_inst : proto_detail_file_t :=
  { fd := { data := [0, 0, 0, 0, 0], pos := 5 }, eof := true, closing := false,
    outstanding := 0, file_size := 5, header_offset := 0, read_offset := 5,
    max_packet_size := 100 }

def c6_buf : List Byte := [65, 10, 10, 0]

/-- C7 witness input. -/
def c7_inst : proto_detail_file_t :=
  { fd := { data := [1, 2, 3, 4, 5, 6, 7, 8], pos := 0 }, eof := false, closing := false,
    outstanding := 1, file_size := 8, header_offset := 0, read_offset := 1,
    max_packet_size := 100 }

def c7_track : fr_detail_entry_t := { timestamp := 0, done_offset := 3 }

/-- C8 witness input. -/
def c8_inst : proto_detail_file_t :=
  { fd := { data := [1, 2, 3, 4, 5, 6, 7, 8, 9, 10], pos := 0 }, eof := false, closing := false,
    outstanding := 1, file_size := 10, header_offset := 0, read_offset := 4,
    max_packet_size := 100 }

/-- C8 counterexample input: read_offset is negative (the value lseek
    assigns after the rewind hack underflows on an empty file), so the
    cursor-restoring seek in mod_write fails. -/
def c8x_inst : proto_detail_file_t :=
  { fd := { data := [1, 2, 3, 4, 5, 6, 7, 8, 9, 10], pos := 0 }, eof := false, closing := false,
    outstanding := 1, file_size := 10, header_offset := 0, read_offset := -1,
    max_packet_size := 100 }

def c8x_track : fr_detail_entry_t := { timestamp := 0, done_offset := 2 }

def c8x_out : WriteOut := mod_write c8x_inst c8x_track [1] 1

/-- C9 input: an accepted record whose leading byte is 255. -/
def c9_inst : proto_detail_file_t :=
  { fd := { data := [255, 10, 10], pos := 0 }, eof := false, closing := false,
    outstanding := 0, file_size := 3, header_offset := 0, read_offset := 0,
    max_packet_size := 100 }

def c9_out : ReadOut := mod_read c9_inst (List.replicate 8 0) 8 0 0

/-- C10 input: 4 byte buffer, 8 byte file with no newline at all, so the
    first fill occupies the whole buffer without reaching eof. -/
def c10_inst : proto_detail_file_t :=
  { fd := { data := List.replicate 8 97, pos := 0 }, eof := false, closing := false,
    outstanding := 0, file_size := 8, header_offset := 0, read_offset := 0,
    max_packet_size := 100 }

def c10_out : ReadOut := mod_read c10_inst (List.replicate 4 0) 4 0 0

def c10_out2 : ReadOut := mod_read c10_out.inst c10_out.buffer 4 c10_out.leftover 0

/- Helper lemmas about the byte-store and the delimiter scan. -/

theorem storeBytes_length (data bytes : List Byte) (ofs : Nat) :
    (storeBytes data ofs bytes).length = max data.length (ofs + bytes.length) := by
  simp [storeBytes]
  omega

theorem storeBytes_getD (data bytes : List Byte) (ofs i : Nat) :
    (storeBytes data ofs bytes).getD i 0 =
      if ofs ≤ i ∧ i < ofs + bytes.length then bytes.getD (i - ofs) 0
      else data.getD i 0 := by
  have hA : (data.take ofs ++ List.replicate (ofs - data.length) 0).length = ofs := by
    simp [List.length_take]
    omega
  unfold storeBytes
  rw [List.append_assoc]
  rcases Nat.lt_or_ge i ofs with hi | hi
  · rw [if_neg (by omega)]
    rw [List.getD_append _ _ _ _ (by rw [hA]; exact hi)]
    rcases Nat.lt_or_ge i data.length with hd | hd
    · rw [List.getD_append _ _ _ _ (by simp [List.length_take]; omega)]
      rw [List.getD_eq_getElem _ _ (by simp [List.length_take]; omega),
          List.getD_eq_getElem _ _ hd]
      simp
    · rw [List.getD_append_right _ _ _ _ (by simp [List.length_take]; omega)]
      rw [List.getD_eq_default _ _ hd]
      simp [List.getD_eq_getElem?_getD]
  · rw [List.getD_append_right _ _ _ _ (by rw [hA]; exact hi)]
    rw [hA]
    rcases Nat.lt_or_ge i (ofs + bytes.length) with hb | hb
    · rw [if_pos ⟨hi, hb⟩]
      rw [List.getD_append _ _ _ _ (by omega)]
    · rw [if_neg (by omega)]
      rw [List.getD_append_right _ _ _ _ (by omega)]
      rcases Nat.lt_or_ge i data.length with hd | hd
      · rw [List.getD_eq_getElem _ _ (by simp [List.length_drop]; omega),
            List.getD_eq_getElem _ _ hd]
        simp only [List.getElem_drop]
        congr 1
        omega
      · rw [List.getD_eq_default _ _ (by simp [List.length_drop]; omega),
            List.getD_eq_default _ _ hd]

theorem findDelimAux_none (buf : List Byte) (endIdx : Nat) :
    ∀ (fuel p : Nat),
      (∀ q, q < endIdx - 1 → p ≤ q → ¬(byteAt buf q = 10 ∧ byteAt buf (q+1) = 10)) →
      findDelimAux buf endIdx fuel p = none := by
  intro fuel
  induction fuel with
  | zero => intro p _; rfl
  | succ fuel ih =>
    intro p h
    rw [findDelimAux]
    by_cases h1 : endIdx ≤ p
    · rw [if_pos h1]
    · rw [if_neg h1]
      by_cases h2 : byteAt buf p ≠ 10
      · rw [if_pos h2]
        exact ih (p+1) (fun q hq hpq => h q hq (by omega))
      · rw [if_neg h2]
        by_cases h3 : p + 1 = endIdx
        · rw [if_pos h3]
        · rw [if_neg h3]
          have h4 : ¬ byteAt buf (p+1) = 10 := by
            intro hb
            have h2eq : byteAt buf p = 10 := by
              by_contra hcon
              exact h2 hcon
            exact h p (by omega) le_rfl ⟨h2eq, hb⟩
          rw [if_neg h4]
          exact ih (p+1) (fun q hq hpq => h q hq (by omega))

theorem fillStep_closing (inst : proto_detail_file_t) (buffer : List Byte)
    (buffer_len leftover : Nat) (inst1 : proto_detail_file_t) (buf1 : List Byte) (endIdx : Nat)
    (h : fillStep inst buffer buffer_len leftover = some (inst1, buf1, endIdx)) :
    inst1.closing = inst.closing := by
  unfold fillStep at h
  by_cases he : inst.eof = false
  · rw [if_pos he] at h
    simp only [Option.some.injEq, Prod.mk.injEq] at h
    rw [← h.1]
  · rw [if_neg he] at h
    by_cases hl : leftover = 0
    · rw [if_pos hl] at h
      exact absurd h (by simp)
    · rw [if_neg hl] at h
      simp only [Option.some.injEq, Prod.mk.injEq] at h
      rw [← h.1]

/-- C1: the claim says an oversize candidate record is silently dropped and
    never surfaced (the call returns a later in-bounds record length or 0)
    with header_offset advanced past it.  On the c1 input the only candidate
    record has length 8, above the configured maximum 4, yet mod_read
    returns 8 (the oversize length itself, with no tracking entry stored),
    and header_offset is not advanced at all: the skip path for a final
    record at eof falls through to the return, contradicting the claim. -/
theorem c1_oversize_final_record_returned_to_caller :
    c1_inst.max_packet_size < 8
    ∧ c1_out.ret = 8
    ∧ c1_out.packet_ctx.isNone = true
    ∧ c1_out.inst.header_offset = c1_inst.header_offset
    ∧ c1_out.aborted = false := by
  decide

/-- C2: the claim says a record containing a tab-Done tag is skipped like an
    oversize record and never surfaced.  The c2 record contains the
    newline, tab, D, o, n, e byte sequence, yet mod_read surfaces it: the C
    comparison memcmp(p, tab-Done, 5) starts at the newline itself, so it
    can never match and no record is ever skipped for carrying a Done
    tag. -/
theorem c2_done_tagged_record_not_skipped :
    subRange c2_file 1 7 = 10 :: doneTag
    ∧ c2_out.ret = 9
    ∧ c2_out.packet_ctx.isSome = true
    ∧ c2_out.aborted = false := by
  decide

/-- C3: the claim says done_field_offset equals the absolute offset just
    past a tab-Timestamp tag when the record carries one.  The c3 record
    carries the tag (newline, tab, T, i, m, e, s, t, a, m, p at offsets 1
    to 11), yet the tracking entry records done_offset 0: the C comparison
    memcmp(p, tab-Timestamp, 10) starts at the newline itself and can never
    match. -/
theorem c3_timestamp_tag_yields_zero_done_offset :
    subRange c3_file 1 12 = 10 :: timestampTag
    ∧ c3_out.ret = 18
    ∧ c3_out.packet_ctx = some { timestamp := 0, done_offset := 0 }
    ∧ c3_out.aborted = false := by
  decide

/-- C4: the claim says outstanding always equals tokens issued minus tokens
    released.  On the c4 input (one oversize final record at eof) mod_read
    issues no tracking token (packet_ctx stays empty) and releases none,
    yet outstanding goes from 0 to 1, because the skip path falls through
    to the outstanding increment. -/
theorem c4_outstanding_incremented_without_token :
    c4_inst.outstanding = 0
    ∧ c4_out.packet_ctx.isNone = true
    ∧ c4_out.inst.outstanding = 1
    ∧ c4_out.aborted = false := by
  decide

/-- C5 counterexample: the claim says a delimiter whose SECOND newline is
    the very last byte of the filled region is not treated as found and is
    deferred as leftover.  On the c5x input the filled region is the three
    bytes 65, 10, 10 (the pair ending exactly at the fill end) and the
    stream is not at eof; the claim then demands a return of 0 with all
    three bytes kept as leftover, but mod_read accepts the record: it
    returns 3 with leftover 0 and a tracking entry.  Only a pair whose
    FIRST newline is the last filled byte is deferred. -/
theorem c5_delimiter_at_fill_end_is_found :
    byteAt (storeBytes (List.replicate 8 0) 0 [65, 10, 10]) 1 = 10
    ∧ byteAt (storeBytes (List.replicate 8 0) 0 [65, 10, 10]) 2 = 10
    ∧ c5x_inst.eof = false
    ∧ c5x_out.ret = 3
    ∧ c5x_out.leftover = 0
    ∧ c5x_out.packet_ctx.isSome = true := by
  decide

/-- C8 counterexample: the claim says acknowledge returns a fatal error
    whenever any of its seeks or its write fails.  On the c8x input the
    final cursor-restoring lseek targets the negative offset read_offset
    = -1 and fails (the model cursor stays at 6, just past the written
    marker, instead of being restored), yet mod_write returns 1 =
    buffer_len, not a negative fatal error: the C code discards all three
    return values with void casts. -/
theorem c8_seek_failure_not_fatal :
    c8x_inst.read_offset < 0
    ∧ (lseekSet c8x_out.inst.fd c8x_inst.read_offset).2 = -1
    ∧ c8x_out.inst.fd.pos = 6
    ∧ c8x_out.ret = 1
    ∧ ¬ c8x_out.ret < 0
    ∧ c8x_out.aborted = false := by
  decide

/-- C10: for the c10 input (4 byte buffer, file of 8 bytes with no newline,
    not reaching eof) mod_read returns 0 and stores leftover = 4 =
    buffer_len, violating the precondition leftover < buffer_len it asserts
    on entry, so the immediately following call aborts on that
    assertion. -/
theorem c10_full_buffer_leftover_violates_precondition :
    c10_out.ret = 0
    ∧ c10_out.aborted = false
    ∧ c10_out.leftover = 4
    ∧ ¬ c10_out.leftover < 4
    ∧ c10_out2.aborted = true := by
  decide

/-- C9: the dispatch priority of an accepted record is selected by indexing
    the priorities table, which has FR_MAX_PACKET_CODE entries, with the
    record's unvalidated leading byte; the lookup is in bounds exactly when
    that byte is below FR_MAX_PACKET_CODE, and on the c9 input (leading
    byte 255) an accepted record makes the index fall outside the table
    (the model lookup yields the inner none). -/
theorem c9_priority_index_out_of_bounds :
    (∀ b : Nat, (prioritiesLookup b).isSome = true ↔ b < FR_MAX_PACKET_CODE)
    ∧ byteAt c9_out.buffer 0 = 255
    ∧ ¬ 255 < FR_MAX_PACKET_CODE
    ∧ c9_out.ret = 3
    ∧ c9_out.packet_ctx.isSome = true
    ∧ c9_out.priority = some none := by
  constructor
  · intro b
    unfold prioritiesLookup
    by_cases h : b < FR_MAX_PACKET_CODE
    · simp [h]
    · simp [h]
  · decide

/-- C8 (amended): acknowledge returns the number of bytes consumed, always
    buffer_len, whenever buffer_len is at least 1 and a record is
    outstanding, even when one of its seeks or its write fails (the C code
    discards their results); its only error return is -1 for
    buffer_len < 1. -/
theorem c8_ack_returns_buffer_len (inst : proto_detail_file_t) (track : fr_detail_entry_t)
    (buffer : List Byte) (buffer_len : Nat) :
    (buffer_len = 0 → (mod_write inst track buffer buffer_len).ret = -1)
    ∧ (1 ≤ buffer_len → 1 ≤ inst.outstanding →
        (mod_write inst track buffer buffer_len).ret = (buffer_len : Int)) := by
  constructor
  · intro h
    subst h
    simp [mod_write]
  · intro hb ho
    have h1 : ¬ buffer_len < 1 := by omega
    have h2 : ¬ inst.outstanding ≤ 0 := by omega
    by_cases h0 : byteAt buffer 0 = 0
    · simp [mod_write, h1, h2, h0]
    · by_cases hd : 0 < track.done_offset
      · simp [mod_write, h1, h2, h0, hd]
      · simp [mod_write, h1, h2, h0, hd]

theorem c8_ack_returns_buffer_len_witness :
    (mod_write c8_inst c8x_track [1] 1).ret = ((1 : Nat) : Int) :=
  (c8_ack_returns_buffer_len c8_inst c8x_track [1] 1).2 (by decide) (by decide)

/-- C7: acknowledging a token whose done_field_offset is 0 performs no file
    write (the descriptor, contents and cursor alike, is untouched);
    acknowledging one with a positive offset, when the leading buffer byte
    is not the suppress-reply sentinel 0, overwrites exactly the 4 bytes
    D, o, n, e at that offset (every position i reads back the marker there
    and the old byte elsewhere) and then restores the cursor to the
    stream's read_offset. -/
theorem c7_ack_done_marker_write (inst : proto_detail_file_t) (track : fr_detail_entry_t)
    (buffer : List Byte) (buffer_len : Nat) (i : Nat)
    (hblen : 1 ≤ buffer_len) (hout : 1 ≤ inst.outstanding) :
    (track.done_offset = 0 → (mod_write inst track buffer buffer_len).inst.fd = inst.fd)
    ∧ (0 < track.done_offset → byteAt buffer 0 ≠ 0 → 0 ≤ inst.read_offset →
        ((mod_write inst track buffer buffer_len).inst.fd.data.getD i 0 =
          if track.done_offset.toNat ≤ i ∧ i < track.done_offset.toNat + 4
          then doneMarker.getD (i - track.done_offset.toNat) 0
          else inst.fd.data.getD i 0)
        ∧ (mod_write inst track buffer buffer_len).inst.fd.data.length
            = max inst.fd.data.length (track.done_offset.toNat + 4)
        ∧ ((mod_write inst track buffer buffer_len).inst.fd.pos : Int) = inst.read_offset) := by
  have h1 : ¬ buffer_len < 1 := by omega
  have h2 : ¬ inst.outstanding ≤ 0 := by omega
  constructor
  · intro hz
    have hd : ¬ 0 < track.done_offset := by omega
    by_cases h0 : byteAt buffer 0 = 0
    · simp [mod_write, h1, h2, h0]
    · simp [mod_write, h1, h2, h0, hd]
  · intro hd h0 hro
    have hw : mod_write inst track buffer buffer_len =
        { ret := (buffer_len : Int),
          inst :=
            { inst with
              outstanding := inst.outstanding - 1,
              fd :=
                { data := storeBytes inst.fd.data track.done_offset.toNat doneMarker,
                  pos := inst.read_offset.toNat } } } := by
      simp only [mod_write, if_neg h1, if_neg h2, if_neg h0, if_pos hd]
      unfold lseekSet fdWrite
      rw [if_neg (by omega)]
      simp only []
      rw [if_neg (by omega)]
    rw [hw]
    refine ⟨?_, ?_, ?_⟩
    · have hlen : doneMarker.length = 4 := rfl
      have := storeBytes_getD inst.fd.data doneMarker track.done_offset.toNat i
      rw [hlen] at this
      exact this
    · have hlen : doneMarker.length = 4 := rfl
      have := storeBytes_length inst.fd.data doneMarker track.done_offset.toNat
      rw [hlen] at this
      exact this
    · exact Int.toNat_of_nonneg hro

theorem c7_ack_done_marker_write_witness :
    ((mod_write c7_inst c7_track [7] 1).inst.fd.data.getD 3 0 =
      if c7_track.done_offset.toNat ≤ 3 ∧ 3 < c7_track.done_offset.toNat + 4
      then doneMarker.getD (3 - c7_track.done_offset.toNat) 0
      else c7_inst.fd.data.getD 3 0)
    ∧ (mod_write c7_inst c7_track [7] 1).inst.fd.data.length
        = max c7_inst.fd.data.length (c7_track.done_offset.toNat + 4)
    ∧ ((mod_write c7_inst c7_track [7] 1).inst.fd.pos : Int) = c7_inst.read_offset :=
  (c7_ack_done_marker_write c7_inst c7_track [7] 1 3 (by decide) (by decide)).2
    (by decide) (by decide) (by decide)

/-- C5 (amended): during delimiter scanning in read_next, a newline that is
    the very last byte of the filled region is never treated as the start
    of a found delimiter (the p + 1 = end guard); when the region contains
    no two consecutive newlines before its last byte and the stream is not
    at eof, the whole filled region, trailing newline included, is deferred
    to the next call as leftover and the call returns 0.  (A delimiter
    whose SECOND newline is the last filled byte IS found; only one whose
    first newline is last is deferred.) -/
theorem c5_trailing_newline_deferred (inst : proto_detail_file_t) (buffer : List Byte)
    (buffer_len leftover now : Nat) (bytes buf1 : List Byte) (endIdx s : Nat)
    (hlv : leftover < buffer_len)
    (hclosing : inst.closing = false)
    (heof : inst.eof = false)
    (hbytes : bytes = (inst.fd.data.drop inst.fd.pos).take (buffer_len - leftover))
    (hbuf : buf1 = storeBytes buffer leftover bytes)
    (hend : endIdx = leftover + bytes.length)
    (hs : s = if 0 < leftover then leftover - 1 else leftover)
    (hread : bytes.length ≠ 0)
    (hgrow : ((inst.fd.pos + bytes.length : Nat) : Int) ≠ inst.file_size)
    (hlast : byteAt buf1 (endIdx - 1) = 10)
    (hnopair : ∀ q, q < endIdx - 1 → s ≤ q →
        ¬(byteAt buf1 q = 10 ∧ byteAt buf1 (q+1) = 10)) :
    (mod_read inst buffer buffer_len leftover now).ret = 0
    ∧ (mod_read inst buffer buffer_len leftover now).leftover = endIdx := by
  have hb : ¬ buffer_len ≤ leftover := by omega
  have heq0 : ((bytes.length == 0) : Bool) = false := by
    simp [hread]
  have heq1 : ((((inst.fd.pos + bytes.length : Nat) : Int) == inst.file_size) : Bool) = false := by
    simp only [beq_eq_false_iff_ne]
    exact hgrow
  have hfill : fillStep inst buffer buffer_len leftover =
      some ({ inst with
              fd := { data := inst.fd.data, pos := inst.fd.pos + bytes.length },
              read_offset := ((inst.fd.pos + bytes.length : Nat) : Int),
              eof := false }, buf1, endIdx) := by
    simp only [fillStep, fdRead, if_pos heof]
    rw [← hbytes]
    rw [heq0]
    rw [heq1]
    rw [← hbuf, ← hend]
    simp
  have hfd : findDelim buf1 s endIdx = none := by
    unfold findDelim
    exact findDelimAux_none buf1 endIdx (endIdx - s) s hnopair
  have hloop : redoLoop
      { inst with
        fd := { data := inst.fd.data, pos := inst.fd.pos + bytes.length },
        read_offset := ((inst.fd.pos + bytes.length : Nat) : Int),
        eof := false } (endIdx + 1) buf1 leftover leftover endIdx
      = LoopRes.retZero buf1 endIdx := by
    rw [redoLoop]
    rw [← hs]
    rw [hfd]
    simp
  have hcl : ¬ inst.closing = true := by
    rw [hclosing]
    exact Bool.false_ne_true
  rw [mod_read.eq_def]
  rw [if_neg hb, if_neg hcl, hfill]
  simp only [hloop]
  exact ⟨trivial, trivial⟩

theorem c5_trailing_newline_deferred_witness :
    (mod_read c5w_inst (List.replicate 4 0) 4 0 0).ret = 0
    ∧ (mod_read c5w_inst (List.replicate 4 0) 4 0 0).leftover = 2 :=
  c5_trailing_newline_deferred c5w_inst (List.replicate 4 0) 4 0 0
    [65, 10] (storeBytes (List.replicate 4 0) 0 [65, 10]) 2 0
    (by decide) (by decide) (by decide) (by decide) (by decide) (by decide) (by decide)
    (by decide) (by decide) (by decide) (by decide)

theorem doneBlock_eof (j : proto_detail_file_t) (lv : Nat)
    (heof : j.eof = true) (hcl : j.closing = false) (hro : 1 ≤ j.read_offset) :
    doneBlock j lv = some { j with
                            fd := { data := j.fd.data, pos := (j.read_offset - 1).toNat },
                            read_offset := j.read_offset - 1, closing := (lv == 0),
                            outstanding := j.outstanding + 1 } := by
  rw [doneBlock, if_pos heof]
  rw [if_neg (by rw [hcl]; exact Bool.false_ne_true)]
  unfold lseekSet
  rw [if_neg (by omega)]

/-- C6: whenever mod_read accepts a record (stores a tracking entry) while
    the stream is at eof after the fill step, it rewinds the file cursor by
    one byte relative to the last known read position (read_offset as left
    by the fill), storing read_offset - 1 both as the new read_offset and
    as the cursor, and immediately afterwards closing is set exactly when
    the resulting leftover count is zero. -/
theorem c6_eof_accept_rewinds_and_closes (inst : proto_detail_file_t) (buffer : List Byte)
    (buffer_len leftover now : Nat) (inst1 : proto_detail_file_t) (buf1 : List Byte) (endIdx : Nat)
    (hfill : fillStep inst buffer buffer_len leftover = some (inst1, buf1, endIdx))
    (heof : inst1.eof = true)
    (hro : 1 ≤ inst1.read_offset)
    (hacc : (mod_read inst buffer buffer_len leftover now).packet_ctx.isSome = true) :
    (mod_read inst buffer buffer_len leftover now).inst.read_offset = inst1.read_offset - 1
    ∧ ((mod_read inst buffer buffer_len leftover now).inst.fd.pos : Int) = inst1.read_offset - 1
    ∧ ((mod_read inst buffer buffer_len leftover now).inst.closing = true
        ↔ (mod_read inst buffer buffer_len leftover now).leftover = 0) := by
  by_cases hb : buffer_len ≤ leftover
  · exfalso
    rw [mod_read.eq_def] at hacc
    rw [if_pos hb] at hacc
    simp at hacc
  · by_cases hc : inst.closing = true
    · exfalso
      rw [mod_read.eq_def] at hacc
      rw [if_neg hb, if_pos hc] at hacc
      simp at hacc
    · have hc1 : inst1.closing = false := by
        rw [fillStep_closing inst buffer buffer_len leftover inst1 buf1 endIdx hfill]
        exact Bool.not_eq_true _ |>.mp hc
      rw [mod_read.eq_def] at hacc ⊢
      rw [if_neg hb, if_neg hc, hfill] at hacc ⊢
      rcases hloop : redoLoop inst1 (endIdx + 1) buf1 leftover leftover endIdx with
        _ | ⟨buf2, lv⟩ | ⟨pl, lv, buf2⟩ | ⟨pl, lv, dofs, buf2⟩
      · exfalso
        simp only [hloop] at hacc
        simp at hacc
      · exfalso
        simp only [hloop] at hacc
        simp at hacc
      · exfalso
        simp only [hloop] at hacc
        rcases hdb : doneBlock inst1 lv with _ | inst2
        · simp only [hdb] at hacc
          simp at hacc
        · simp only [hdb] at hacc
          simp at hacc
      · have hdb := doneBlock_eof { inst1 with header_offset := inst1.header_offset + (pl : Int) }
          lv (by simpa using heof) (by simpa using hc1) (by simpa using hro)
        simp only [hloop, hdb]
        refine ⟨?_, ?_, ?_⟩
        · simp
        · simp
          omega
        · simp

theorem c6_eof_accept_rewinds_and_closes_witness :
    (mod_read c6_inst c6_buf 4 3 0).inst.read_offset = c6_inst.read_offset - 1
    ∧ ((mod_read c6_inst c6_buf 4 3 0).inst.fd.pos : Int) = c6_inst.read_offset - 1
    ∧ ((mod_read c6_inst c6_buf 4 3 0).inst.closing = true
        ↔ (mod_read c6_inst c6_buf 4 3 0).leftover = 0) :=
  c6_eof_accept_rewinds_and_closes c6_inst c6_buf 4 3 0 c6_inst c6_buf 3
    (by decide) (by decide) (by decide) (by decide)
